import Mathlib

/-!
# Verification of the Learning Suite synchronization engine

Shallow embedding of the session-resilient synchronization engine of the
AISchedulingAssistant backend:

* the status-inference engine (`mapStatus`, from
  `learning_suite_scraper.py`, `_map_status` / `STATUS_MAPPING`);
* the URL sanitizer (`sanitizeUrl`, from `_sanitize_url`);
* the description cleaner (`cleanDescription`, from `_clean_description`);
* the reconciliation layer (`updateDatabase`, from `update_database`);
* the guarded navigation primitive (`safeNavigate`, from `_safe_navigate`);
* the session-restore verifier (`injectCookiesVerify`, from `inject_cookies`);
* the per-course extraction loop (`scrapeAllCourses`, from
  `scrape_all_courses`);
* the sync-task orchestrator (`startSync` and the task-state step relation,
  from `sync_service.py`), and the sync run procedure (`runSync`, from
  `_run_sync`).

Text is modelled as `List Char`.  Python `None`-able string fields are
`Option Str`; Python truthiness of such a field ("non-None and non-empty")
is `truthyOpt`.  External collaborators (the browser, the HTTP layer, the
LLM wrappers) are modelled as environment inputs.  The Supabase record
store is modelled as a list of rows; the primary-key update used by the
code is modelled as "replace the first row matching the identity key",
which agrees with the code because `id` is a primary key.
-/

namespace LS

abbrev Str := List Char

/-- Python truthiness of an optional string: `None` and `""` are falsy. -/
def truthyOpt : Option Str → Bool
  | none => false
  | some s => !s.isEmpty

/-- ASCII lowering of a string, modelling Python `str.lower` on the ASCII
inputs this code base feeds it. -/
def lowerStr (s : Str) : Str := s.map Char.toLower

/-- Python `str.strip`: drop leading and trailing whitespace. -/
def stripStr (s : Str) : Str :=
  (s.dropWhile Char.isWhitespace).reverse.dropWhile Char.isWhitespace |>.reverse

/-- `startsWithL s p`: `p` is a prefix of `s` (Python `s.startswith(p)`). -/
def startsWithL : Str → Str → Bool
  | _, [] => true
  | [], _ :: _ => false
  | c :: cs, d :: ds => c = d && startsWithL cs ds

/-- `containsSub s p`: `p` occurs as a contiguous substring of `s`
(Python `p in s`). -/
def containsSub (s p : Str) : Bool :=
  match s with
  | [] => startsWithL [] p
  | _ :: t => startsWithL s p || containsSub t p

/-- The five persisted-store status values (`not_started` / `in_progress` /
`submitted` / `unavailable` / `newly_assigned`).  The scraper itself only
produces the first four; `newlyAssigned` is the store's "not yet triaged"
state. -/
inductive Status where
  | notStarted
  | inProgress
  | submitted
  | unavailable
  | newlyAssigned
  deriving DecidableEq, Repr

open Status

/-- `STATUS_MAPPING` from `learning_suite_scraper.py`, in the source's
insertion order (Python dict iteration order is insertion order, which the
substring-match pass of `_map_status` relies on). -/
def statusMapping : List (Str × Status) :=
  [ (("continue").data, inProgress)
  , (("continue exam").data, inProgress)
  , (("resume").data, inProgress)
  , (("begin").data, notStarted)
  , (("begin exam").data, notStarted)
  , (("start").data, notStarted)
  , (("open").data, notStarted)
  , (("submit").data, notStarted)
  , (("take").data, notStarted)
  , (("completed").data, submitted)
  , (("graded").data, submitted)
  , (("resubmit").data, submitted)
  , (("closed").data, notStarted)
  , (("unavailable").data, unavailable) ]

/-- `AMBIGUOUS_BUTTONS` from the source. -/
def ambiguousButtons : List Str := [("view").data, ("view/submit").data]

/-- Exact lookup of a key in a label table (Python `key in dict` +
`dict[key]`). -/
def assocLookup (s : Str) : List (Str × Status) → Option Status
  | [] => none
  | (k, v) :: rest => if s = k then some v else assocLookup s rest

/-- First table entry whose key occurs as a substring of `s` (the
`for key, value in STATUS_MAPPING.items()` partial-match pass). -/
def substrScan (s : Str) : List (Str × Status) → Option Status
  | [] => none
  | (k, v) :: rest => if containsSub s k then some v else substrScan s rest

/-- `_map_status` from `learning_suite_scraper.py`: maps the action-button
text, the auxiliary status text, and the has-score flag to a canonical
status.  Logging is omitted; everything else follows the source line by
line. -/
def mapStatus (buttonText statusText : Str) (hasScore : Bool) : Status :=
  let buttonLower := stripStr (lowerStr buttonText)
  let statusLower := stripStr (lowerStr statusText)
  if startsWithL buttonLower ("opens").data then unavailable
  else if containsSub statusLower ("unavailable").data
          || containsSub buttonLower ("unavailable").data then unavailable
  else if hasScore then submitted
  else if buttonLower ∈ ambiguousButtons then notStarted
  else match assocLookup buttonLower statusMapping with
    | some v => v
    | none =>
      match substrScan buttonLower statusMapping with
      | some v => v
      | none => notStarted

/-- The fixed label table exactly as the claim states it:
continue/resume → in_progress; begin/start/open/submit/take → not_started;
completed/graded/resubmit → submitted; closed → not_started. -/
def claimTable : List (Str × Status) :=
  [ (("continue").data, inProgress)
  , (("resume").data, inProgress)
  , (("begin").data, notStarted)
  , (("start").data, notStarted)
  , (("open").data, notStarted)
  , (("submit").data, notStarted)
  , (("take").data, notStarted)
  , (("completed").data, submitted)
  , (("graded").data, submitted)
  , (("resubmit").data, submitted)
  , (("closed").data, notStarted) ]

/-- The status-inference rules exactly in the priority order the claim
states them, over the same normalized (lower-cased, stripped) signal texts
as the code: (1) opens-prefix or "unavailable" substring → unavailable;
(2) has-score → submitted; (3) ambiguous set → not_started; (4) exact match
in the claim's fixed label table; (5) substring match against that table;
(6) default not_started. -/
def specMapStatus (buttonText statusText : Str) (hasScore : Bool) : Status :=
  let buttonLower := stripStr (lowerStr buttonText)
  let statusLower := stripStr (lowerStr statusText)
  if startsWithL buttonLower ("opens").data then unavailable
  else if containsSub buttonLower ("unavailable").data
          || containsSub statusLower ("unavailable").data then unavailable
  else if hasScore then submitted
  else if buttonLower ∈ ambiguousButtons then notStarted
  else match assocLookup buttonLower claimTable with
    | some v => v
    | none =>
      match substrScan buttonLower claimTable with
      | some v => v
      | none => notStarted

/-! ### Substring lemmas used to align the code's table with the claim's -/

theorem startsWithL_append {s p q : Str} (h : startsWithL s (p ++ q) = true) :
    startsWithL s p = true := by
  induction p generalizing s with
  | nil => cases s <;> rfl
  | cons c cs ih =>
    cases s with
    | nil => simp [startsWithL] at h
    | cons d ds =>
      simp only [List.cons_append, startsWithL, Bool.and_eq_true] at h ⊢
      exact ⟨h.1, ih h.2⟩

theorem containsSub_append {s p q : Str} (h : containsSub s (p ++ q) = true) :
    containsSub s p = true := by
  induction s with
  | nil =>
    simp only [containsSub] at h ⊢
    exact startsWithL_append h
  | cons c cs ih =>
    simp only [containsSub, Bool.or_eq_true] at h ⊢
    rcases h with h | h
    · exact Or.inl (startsWithL_append h)
    · exact Or.inr (ih h)

theorem containsSub_false_of_glue (s : Str) {p q r : Str} (hpq : p ++ q = r)
    (h : containsSub s p = false) : containsSub s r = false := by
  cases hr : containsSub s r with
  | false => rfl
  | true =>
    subst hpq
    exact absurd (containsSub_append hr) (by simp [h])

/-- The code's label table and the claim's label table decide the same
status for every signal that does not contain "unavailable": the code's
extra entries (`continue exam`, `begin exam`) are shadowed by the shorter
keys they extend, and `unavailable` is unreachable past the first rule. -/
theorem tables_agree (s : Str)
    (hu : containsSub s (("unavailable").data) = false) :
    (match assocLookup s statusMapping with
     | some v => v
     | none => match substrScan s statusMapping with
       | some v => v
       | none => Status.notStarted)
    =
    (match assocLookup s claimTable with
     | some v => v
     | none => match substrScan s claimTable with
       | some v => v
       | none => Status.notStarted) := by
  by_cases k1 : s = ("continue").data
  · subst k1; decide
  by_cases k2 : s = ("continue exam").data
  · subst k2; decide
  by_cases k3 : s = ("resume").data
  · subst k3; decide
  by_cases k4 : s = ("begin").data
  · subst k4; decide
  by_cases k5 : s = ("begin exam").data
  · subst k5; decide
  by_cases k6 : s = ("start").data
  · subst k6; decide
  by_cases k7 : s = ("open").data
  · subst k7; decide
  by_cases k8 : s = ("submit").data
  · subst k8; decide
  by_cases k9 : s = ("take").data
  · subst k9; decide
  by_cases k10 : s = ("completed").data
  · subst k10; decide
  by_cases k11 : s = ("graded").data
  · subst k11; decide
  by_cases k12 : s = ("resubmit").data
  · subst k12; decide
  by_cases k13 : s = ("closed").data
  · subst k13; decide
  by_cases k14 : s = ("unavailable").data
  · subst k14; exact absurd hu (by decide)
  have hex : assocLookup s statusMapping = none := by
    simp [statusMapping, assocLookup,
      k1, k2, k3, k4, k5, k6, k7, k8, k9, k10, k11, k12, k13, k14]
  have hex' : assocLookup s claimTable = none := by
    simp [claimTable, assocLookup,
      k1, k3, k4, k6, k7, k8, k9, k10, k11, k12, k13]
  rw [hex, hex']
  by_cases c1 : containsSub s (("continue").data) = true
  · simp [statusMapping, claimTable, substrScan, c1]
  have c1' : containsSub s (("continue").data) = false := by
    simpa using c1
  have cce : containsSub s (("continue exam").data) = false :=
    containsSub_false_of_glue s
      (show ("continue").data ++ (" exam").data = ("continue exam").data
        by decide) c1'
  by_cases c3 : containsSub s (("resume").data) = true
  · simp [statusMapping, claimTable, substrScan, c1', cce, c3]
  have c3' : containsSub s (("resume").data) = false := by simpa using c3
  by_cases c4 : containsSub s (("begin").data) = true
  · simp [statusMapping, claimTable, substrScan, c1', cce, c3', c4]
  have c4' : containsSub s (("begin").data) = false := by simpa using c4
  have cbe : containsSub s (("begin exam").data) = false :=
    containsSub_false_of_glue s
      (show ("begin").data ++ (" exam").data = ("begin exam").data
        by decide) c4'
  by_cases c6 : containsSub s (("start").data) = true
  · simp [statusMapping, claimTable, substrScan, c1', cce, c3', c4', cbe, c6]
  have c6' : containsSub s (("start").data) = false := by simpa using c6
  by_cases c7 : containsSub s (("open").data) = true
  · simp [statusMapping, claimTable, substrScan, c1', cce, c3', c4', cbe, c6', c7]
  have c7' : containsSub s (("open").data) = false := by simpa using c7
  by_cases c8 : containsSub s (("submit").data) = true
  · simp [statusMapping, claimTable, substrScan,
      c1', cce, c3', c4', cbe, c6', c7', c8]
  have c8' : containsSub s (("submit").data) = false := by simpa using c8
  by_cases c9 : containsSub s (("take").data) = true
  · simp [statusMapping, claimTable, substrScan,
      c1', cce, c3', c4', cbe, c6', c7', c8', c9]
  have c9' : containsSub s (("take").data) = false := by simpa using c9
  by_cases c10 : containsSub s (("completed").data) = true
  · simp [statusMapping, claimTable, substrScan,
      c1', cce, c3', c4', cbe, c6', c7', c8', c9', c10]
  have c10' : containsSub s (("completed").data) = false := by simpa using c10
  by_cases c11 : containsSub s (("graded").data) = true
  · simp [statusMapping, claimTable, substrScan,
      c1', cce, c3', c4', cbe, c6', c7', c8', c9', c10', c11]
  have c11' : containsSub s (("graded").data) = false := by simpa using c11
  by_cases c12 : containsSub s (("resubmit").data) = true
  · simp [statusMapping, claimTable, substrScan,
      c1', cce, c3', c4', cbe, c6', c7', c8', c9', c10', c11', c12]
  have c12' : containsSub s (("resubmit").data) = false := by simpa using c12
  by_cases c13 : containsSub s (("closed").data) = true
  · simp [statusMapping, claimTable, substrScan,
      c1', cce, c3', c4', cbe, c6', c7', c8', c9', c10', c11', c12', c13]
  have c13' : containsSub s (("closed").data) = false := by simpa using c13
  simp [statusMapping, claimTable, substrScan,
    c1', cce, c3', c4', cbe, c6', c7', c8', c9', c10', c11', c12', c13', hu]

/-- C3: status inference follows the claim's six prioritized rules.  For
every input triple, `_map_status` returns exactly what the claim's
first-match rule list returns, and an ambiguous signal without score
evidence is never classified as submitted. -/
theorem mapStatus_follows_claim_rules :
    (∀ b st hs, mapStatus b st hs = specMapStatus b st hs) ∧
    (∀ b st, stripStr (lowerStr b) ∈ ambiguousButtons →
      mapStatus b st false ≠ Status.submitted) := by
  constructor
  · intro b st hs
    simp only [mapStatus, specMapStatus]
    generalize stripStr (lowerStr b) = bl
    generalize stripStr (lowerStr st) = sl
    cases h1 : startsWithL bl (("opens").data) with
    | true => simp [h1]
    | false =>
      cases h2 : containsSub sl (("unavailable").data) with
      | true => simp [h1, h2]
      | false =>
        cases h3 : containsSub bl (("unavailable").data) with
        | true => simp [h1, h2, h3]
        | false =>
          cases hs with
          | true => simp [h1, h2, h3]
          | false =>
            by_cases hamb : bl ∈ ambiguousButtons
            · simp [h1, h2, h3, hamb]
            · simp only [h1, h2, h3, hamb, Bool.false_eq_true, if_false,
                Bool.or_self, if_true]
              simpa using tables_agree bl h3
  · intro b st hmem
    simp only [mapStatus]
    rcases List.mem_pair.mp hmem with h | h <;> rw [h] <;>
      cases h2 : containsSub (stripStr (lowerStr st)) (("unavailable").data) <;>
        simp [h2] <;> decide

/-- Witness for C3 at a concrete input: the bare "View" signal with no
score is ambiguous and is not classified as submitted. -/
theorem mapStatus_follows_claim_rules_witness :
    mapStatus (("View").data) [] false ≠ Status.submitted :=
  mapStatus_follows_claim_rules.2 (("View").data) [] (by decide)

/-! ## Cleaning helpers used by `update_database` -/

/-- Modelled from the Python standard library's `html.unescape`, which the
source calls but which is external to the repository: decodes HTML
character entities, here restricted to the entity set relevant to the
scraped pages (`&amp;` `&lt;` `&gt;` `&quot;` `&#39;` `&nbsp;`), scanning
left to right and decoding each entity occurrence once, non-recursively,
exactly as the stdlib does on these entities.  On entity-free text it is
the identity, as the stdlib is. -/
def htmlUnescapeGo : Nat → Str → Str
  | 0, s => s
  | _ + 1, [] => []
  | fuel + 1, c :: rest =>
    if c = '&' then
      if startsWithL rest (("amp;").data) then
        '&' :: htmlUnescapeGo fuel (rest.drop 4)
      else if startsWithL rest (("lt;").data) then
        '<' :: htmlUnescapeGo fuel (rest.drop 3)
      else if startsWithL rest (("gt;").data) then
        '>' :: htmlUnescapeGo fuel (rest.drop 3)
      else if startsWithL rest (("quot;").data) then
        '"' :: htmlUnescapeGo fuel (rest.drop 5)
      else if startsWithL rest (("#39;").data) then
        '\'' :: htmlUnescapeGo fuel (rest.drop 4)
      else if startsWithL rest (("nbsp;").data) then
        Char.ofNat 160 :: htmlUnescapeGo fuel (rest.drop 5)
      else c :: htmlUnescapeGo fuel rest
    else c :: htmlUnescapeGo fuel rest

/-- Entry point; every step of `htmlUnescapeGo` consumes at least one
character, so a fuel of the input length never runs out. -/
def htmlUnescape (s : Str) : Str := htmlUnescapeGo s.length s

/-- Scan for the `>` closing a tag; returns the remainder after it. -/
def dropTagAux : Str → Option Str
  | [] => none
  | c :: t => if c = '>' then some t else dropTagAux t

/-- After a `<`, try to consume a `[^>]+>` tag body: at least one
non-`>` character followed by `>`.  Returns the remainder after the `>`
on success. -/
def dropTag : Str → Option Str
  | [] => none
  | c :: t => if c = '>' then none else dropTagAux t

def stripTagsGo : Nat → Str → Str
  | 0, s => s
  | _ + 1, [] => []
  | fuel + 1, c :: rest =>
    if c = '<' then
      match dropTag rest with
      | some r => stripTagsGo fuel r
      | none => c :: stripTagsGo fuel rest
    else c :: stripTagsGo fuel rest

/-- The `re.sub(r'<[^>]+>', '', s)` pass of `_clean_description`: remove
each leftmost, non-overlapping `<...>` tag.  Every step consumes at least
one character, so a fuel of the input length never runs out. -/
def stripTags (s : Str) : Str := stripTagsGo s.length s

/-- The `re.sub(r'\s+', ' ', s)` pass: collapse each maximal whitespace
run to a single space (a run member is dropped while its successor is
also whitespace, and emits the single space at the run's end). -/
def collapseWs : Str → Str
  | [] => []
  | [c] => if c.isWhitespace then [' '] else [c]
  | c :: d :: rest =>
    if c.isWhitespace then
      if d.isWhitespace then collapseWs (d :: rest)
      else ' ' :: collapseWs (d :: rest)
    else c :: collapseWs (d :: rest)

/-- `_clean_description` from `learning_suite_scraper.py`: decode HTML
entities, strip tags, collapse whitespace and strip, and truncate at 500
characters with an appended ellipsis.  The `if not description` guard is
applied by the caller (`prepAssignment`). -/
def cleanDescription (description : Str) : Str :=
  let c1 := htmlUnescape description
  let c2 := stripTags c1
  let c3 := stripStr (collapseWs c2)
  if c3.length > 500 then c3.take 500 ++ ("...").data else c3

/-! ## URL sanitizer -/

def lsBase : Str := ("https://learningsuite.byu.edu").data

def isAlnum (c : Char) : Bool := c.isAlpha || c.isDigit

/-- One attempted match of `https://learningsuite\.byu\.edu/\.[A-Za-z0-9]+(/.*)`
at the start of `s`; returns the captured group (the `/` and everything
after it) on success.  The Python `.*` stops at a newline; the scraped
URLs contain none, and the model captures to the end of the string. -/
def matchSessionAt (s : Str) : Option Str :=
  let pre := ("https://learningsuite.byu.edu/.").data
  if startsWithL s pre then
    let rest := s.drop pre.length
    let run := rest.takeWhile isAlnum
    let after := rest.drop run.length
    if !run.isEmpty && after.head? == some '/' then some after else none
  else none

/-- `re.search` of the session-segment pattern: leftmost match. -/
def searchSession : Str → Option Str
  | [] => matchSessionAt []
  | c :: t =>
    match matchSessionAt (c :: t) with
    | some cap => some cap
    | none => searchSession t

/-- `_sanitize_url` from `learning_suite_scraper.py`: rewrite a URL whose
session segment is followed by a path to the static base URL, inserting
`/cid-<cid>` when a (truthy) cid is given and the path does not already
mention `cid-`. -/
def sanitizeUrl (url : Str) (cid : Option Str) : Str :=
  match searchSession url with
  | some path =>
    if truthyOpt cid && !containsSub path (("cid-").data) then
      lsBase ++ ("/cid-").data ++ cid.getD [] ++ path
    else lsBase ++ path
  | none => url

/-! ## Reconciliation layer (`update_database`) -/

/-- An observed assignment dictionary as handed to `update_database`.
Option-typed string fields model Python `None`-able values. -/
structure Assignment where
  title : Str
  courseName : Str
  dueDate : Option Str
  description : Option Str
  link : Option Str
  status : Status
  assignmentType : Option Str
  lsCid : Option Str
  deriving DecidableEq, Repr

/-- A persisted `assignments` row.  `notes`, `estimatedMinutes`,
`plannedStart`, `plannedEnd` are the user-authored fields; new rows leave
them at their database default (`none`). -/
structure Record where
  title : Str
  courseName : Str
  dueDate : Option Str
  description : Option Str
  link : Option Str
  learningSuiteUrl : Option Str
  status : Status
  isModified : Bool
  lastScrapedAt : Option Str
  assignmentType : Option Str
  lsCid : Option Str
  notes : Option Str
  estimatedMinutes : Option Nat
  plannedStart : Option Str
  plannedEnd : Option Str
  deriving DecidableEq, Repr

/-- The change counters returned by `update_database`.  The `errors`
counter counts caught exceptions; the pure model raises none. -/
structure Summary where
  new : Nat
  modified : Nat
  unchanged : Nat
  errors : Nat
  deriving DecidableEq, Repr

inductive ChangeKind where
  | newK
  | modifiedK
  | unchangedK
  deriving DecidableEq, Repr

/-- The in-place mutation `update_database` performs on each observed
dictionary before the store lookup: the link is replaced by its sanitized
form (or `None` when falsy), a truthy description is cleaned, and the
title is HTML-unescaped. -/
def prepAssignment (a : Assignment) : Assignment :=
  { a with
    link := if truthyOpt a.link then some (sanitizeUrl (a.link.getD []) a.lsCid)
            else none
    description := if truthyOpt a.description then
              some (cleanDescription (a.description.getD []))
            else a.description
    title := htmlUnescape a.title }

/-- The status-overwrite `elif` chain of `update_database`: `some` means a
`status` key is put into `update_data`. -/
def statusUpdate (lsStatus current : Status) : Option Status :=
  if lsStatus = Status.submitted ∧ current ≠ Status.submitted then
    some Status.submitted
  else if lsStatus = Status.notStarted ∧ current = Status.unavailable then
    some Status.notStarted
  else if lsStatus = Status.inProgress ∧
      (current = Status.notStarted ∨ current = Status.newlyAssigned) then
    some Status.inProgress
  else if lsStatus = Status.unavailable ∧ current = Status.newlyAssigned then
    some Status.unavailable
  else none

/-- The matched-record branch of `update_database`: builds `update_data`
and applies it.  `changed` is the local `is_modified` flag (due date or
description differs); the due date and description are rewritten only when
`changed` holds and the observed due date is truthy. -/
def updateRecord (existing : Record) (a : Assignment) (now : Str) :
    Record × Bool :=
  let changed := decide (existing.dueDate ≠ a.dueDate)
    || decide (existing.description ≠ a.description)
  let newStatus := match statusUpdate a.status existing.status with
    | some st => st
    | none => existing.status
  let writeDue := changed && truthyOpt a.dueDate
  ({ existing with
      lastScrapedAt := some now
      isModified := changed
      link := a.link
      learningSuiteUrl := a.link
      assignmentType := a.assignmentType
      lsCid := a.lsCid
      status := newStatus
      dueDate := if writeDue then a.dueDate else existing.dueDate
      description := if writeDue then a.description else existing.description },
   changed)

/-- The insert branch of `update_database`: a definitive observed status
is kept, anything else becomes `newly_assigned`. -/
def insertRecord (a : Assignment) (now : Str) : Record :=
  let insertStatus := if a.status = Status.submitted
      ∨ a.status = Status.inProgress ∨ a.status = Status.unavailable then
    a.status
  else Status.newlyAssigned
  { title := a.title
    courseName := a.courseName
    dueDate := a.dueDate
    description := a.description
    link := a.link
    learningSuiteUrl := a.link
    status := insertStatus
    isModified := false
    lastScrapedAt := some now
    assignmentType := a.assignmentType
    lsCid := a.lsCid
    notes := none
    estimatedMinutes := none
    plannedStart := none
    plannedEnd := none }

/-- The identity-key lookup predicate (`title` and `course_name` both
equal, on the prepped title). -/
def keyMatch (a : Assignment) (r : Record) : Bool :=
  decide (r.title = a.title) && decide (r.courseName = a.courseName)

abbrev Store := List Record

/-- The primary-key `update ... eq("id", existing["id"])` applied to the
first row the identity lookup returned, modelled as replacing the first
matching row (row ids are unique in the database). -/
def replaceFirst (p : Record → Bool) (f : Record → Record) : Store → Store
  | [] => []
  | r :: rs => if p r then f r :: rs else r :: replaceFirst p f rs

/-- One iteration of the `for i, assignment in enumerate(assignments)`
loop: prep the dictionary in place, look it up by identity key, and either
update the matched row or insert a new one.  Returns the updated store,
the mutated dictionary, and the change classification counted into the
summary. -/
def processOne (now : Str) (store : Store) (a0 : Assignment) :
    Store × Assignment × ChangeKind :=
  let a := prepAssignment a0
  match store.find? (keyMatch a) with
  | some r =>
    (replaceFirst (keyMatch a) (fun q => (updateRecord q a now).1) store, a,
     if (updateRecord r a now).2 then ChangeKind.modifiedK
     else ChangeKind.unchangedK)
  | none => (store ++ [insertRecord a now], a, ChangeKind.newK)

def bumpSummary : ChangeKind → Summary → Summary
  | ChangeKind.newK, s => { s with new := s.new + 1 }
  | ChangeKind.modifiedK, s => { s with modified := s.modified + 1 }
  | ChangeKind.unchangedK, s => { s with unchanged := s.unchanged + 1 }

/-- `update_database` from `learning_suite_scraper.py` as a pure function:
processes the observed list left to right against the store, returning the
updated store, the mutated observed list (the Python code mutates the
dictionaries in place), and the summary counters. -/
def updateDatabase (store : Store) (items : List Assignment) (now : Str) :
    Store × List Assignment × Summary :=
  match items with
  | [] => (store, [], { new := 0, modified := 0, unchanged := 0, errors := 0 })
  | a :: rest =>
    let s1 := processOne now store a
    let s2 := updateDatabase s1.1 rest now
    (s2.1, s1.2.1 :: s2.2.1, bumpSummary s1.2.2 s2.2.2)

/-! ## C2: the status-overwrite transition table -/

/-- The transition table exactly as the claim states it: current ≠
submitted with observed submitted → submitted; unavailable with observed
not_started → not_started; not_started or newly_assigned with observed
in_progress → in_progress; newly_assigned with observed unavailable →
unavailable; every other combination keeps the current status. -/
def specTransition (current observed : Status) : Status :=
  if observed = Status.submitted ∧ current ≠ Status.submitted then
    Status.submitted
  else if current = Status.unavailable ∧ observed = Status.notStarted then
    Status.notStarted
  else if (current = Status.notStarted ∨ current = Status.newlyAssigned) ∧
      observed = Status.inProgress then
    Status.inProgress
  else if current = Status.newlyAssigned ∧ observed = Status.unavailable then
    Status.unavailable
  else current

theorem statusUpdate_agrees_with_table (c o : Status) :
    (match statusUpdate o c with | some st => st | none => c)
      = specTransition c o := by
  cases c <;> cases o <;> decide

/-- C2: reconciling an observed item against its matched persisted record
with `is_modified = false` changes the status exactly per the claim's
transition table.  (The model's single-row store is the matched record.) -/
theorem reconcile_status_follows_table (r : Record) (a0 : Assignment)
    (now : Str) (hmod : r.isModified = false)
    (hkey : keyMatch (prepAssignment a0) r = true) :
    ((updateDatabase [r] [a0] now).1.head?.map Record.status)
      = some (specTransition r.status a0.status) := by
  have hfind : List.find? (keyMatch (prepAssignment a0)) [r] = some r := by
    simp [List.find?, hkey]
  simp only [updateDatabase, processOne, hfind, replaceFirst, hkey, if_true,
    List.head?, Option.map]
  have hst : (prepAssignment a0).status = a0.status := rfl
  have := statusUpdate_agrees_with_table r.status a0.status
  simp only [updateRecord, hst]
  rw [← this]

/-- Witness for C2: a persisted `submitted` record with a fresh
`not_started` observation keeps its status (the glitch scenario from the
spec). -/
theorem reconcile_status_follows_table_witness :
    ((updateDatabase
        [{ title := ("Quiz 1").data, courseName := ("CS 142").data,
           dueDate := none, description := none, link := none,
           learningSuiteUrl := none, status := Status.submitted,
           isModified := false, lastScrapedAt := none, assignmentType := none,
           lsCid := none, notes := none, estimatedMinutes := none,
           plannedStart := none, plannedEnd := none }]
        [{ title := ("Quiz 1").data, courseName := ("CS 142").data,
           dueDate := none, description := none, link := none,
           status := Status.notStarted, assignmentType := none,
           lsCid := none }] (("t0").data)).1.head?.map Record.status)
      = some Status.submitted := by
  rw [reconcile_status_follows_table _ _ _ (by decide) (by decide)]
  decide

/-! ## C1: what reconciliation does to a user-modified record -/

/-- The observed-vs-persisted pair refuting the claim: the record has
`is_modified = true`, yet reconciliation still rewrites its status. -/
def c1Rec : Record :=
  { title := ("HW 1").data, courseName := ("CS 142").data, dueDate := none,
    description := none, link := none, learningSuiteUrl := none,
    status := Status.notStarted, isModified := true, lastScrapedAt := none,
    assignmentType := none, lsCid := none, notes := some ("my notes").data,
    estimatedMinutes := some 45, plannedStart := some ("2025-01-01").data,
    plannedEnd := some ("2025-01-02").data }

def c1Obs : Assignment :=
  { title := ("HW 1").data, courseName := ("CS 142").data, dueDate := none,
    description := none, link := none, status := Status.submitted,
    assignmentType := none, lsCid := none }

/-- C1 counterexample: `update_database` never reads the persisted
`is_modified` flag; with `is_modified = true` and current status
`not_started`, an observed `submitted` still overwrites the status. -/
theorem reconcile_overwrites_status_of_modified_record :
    c1Rec.isModified = true ∧
    ((updateDatabase [c1Rec] [c1Obs] (("t0").data)).1.head?.map Record.status)
      = some Status.submitted ∧
    c1Rec.status ≠ Status.submitted := by decide

def userFieldsEq (x y : Record) : Prop :=
  x.notes = y.notes ∧ x.estimatedMinutes = y.estimatedMinutes ∧
  x.plannedStart = y.plannedStart ∧ x.plannedEnd = y.plannedEnd

theorem userFieldsEq_trans {x y z : Record} (h1 : userFieldsEq x y)
    (h2 : userFieldsEq y z) : userFieldsEq x z :=
  ⟨h1.1.trans h2.1, h1.2.1.trans h2.2.1, h1.2.2.1.trans h2.2.2.1,
   h1.2.2.2.trans h2.2.2.2⟩

theorem updateRecord_userFields (q : Record) (a : Assignment) (now : Str) :
    userFieldsEq ((updateRecord q a now).1) q :=
  ⟨rfl, rfl, rfl, rfl⟩

theorem replaceFirst_length (p : Record → Bool) (f : Record → Record)
    (l : Store) : (replaceFirst p f l).length = l.length := by
  induction l with
  | nil => rfl
  | cons x xs ihx =>
    cases hx : p x <;> simp [replaceFirst, hx, ihx]

theorem replaceFirst_get? (p : Record → Bool) (f : Record → Record) :
    ∀ (l : Store) (i : Nat) (r' : Record),
    (replaceFirst p f l)[i]? = some r' →
    ∃ r, l[i]? = some r ∧ (r' = r ∨ r' = f r) := by
  intro l
  induction l with
  | nil => intro i r' h; simp [replaceFirst] at h
  | cons a t ih =>
    intro i r' h
    cases hp : p a with
    | true =>
      simp only [replaceFirst, hp, if_true] at h
      cases i with
      | zero =>
        simp only [List.getElem?_cons_zero, Option.some.injEq] at h
        exact ⟨a, by simp, Or.inr h.symm⟩
      | succ n =>
        simp only [List.getElem?_cons_succ] at h
        exact ⟨r', by simpa using h, Or.inl rfl⟩
    | false =>
      simp only [replaceFirst, hp, Bool.false_eq_true, if_false] at h
      cases i with
      | zero =>
        simp only [List.getElem?_cons_zero, Option.some.injEq] at h
        exact ⟨a, by simp, Or.inl h.symm⟩
      | succ n =>
        simp only [List.getElem?_cons_succ] at h
        obtain ⟨r, hr, hc⟩ := ih n r' h
        exact ⟨r, by simpa using hr, hc⟩

theorem processOne_userFields (now : Str) (store : Store) (a : Assignment)
    (i : Nat) (r r' : Record) (h : store[i]? = some r)
    (h' : ((processOne now store a).1)[i]? = some r') :
    userFieldsEq r' r := by
  simp only [processOne] at h'
  cases hfind : store.find? (keyMatch (prepAssignment a)) with
  | some q =>
    rw [hfind] at h'
    simp only at h'
    obtain ⟨r0, hr0, hcase⟩ := replaceFirst_get? _ _ store i r' h'
    rw [h] at hr0
    injection hr0 with hr0
    subst hr0
    rcases hcase with hc | hc
    · subst hc; exact ⟨rfl, rfl, rfl, rfl⟩
    · subst hc; exact updateRecord_userFields r _ now
  | none =>
    rw [hfind] at h'
    simp only at h'
    have hi : i < store.length := by
      by_contra hlt
      rw [List.getElem?_eq_none (by omega)] at h
      cases h
    rw [List.getElem?_append_left hi] at h'
    rw [h] at h'
    injection h' with h'
    subst h'
    exact ⟨rfl, rfl, rfl, rfl⟩

/-- C1 amended: reconciliation never touches the user-authored fields
(notes, estimated minutes, planned start/end) of any persisted record —
with or without `is_modified` — while status, due date, description, link
and type may be refreshed from the observation. -/
theorem reconcile_preserves_user_fields (items : List Assignment) :
    ∀ (store : Store) (now : Str) (i : Nat) (r r' : Record),
    store[i]? = some r →
    ((updateDatabase store items now).1)[i]? = some r' →
    userFieldsEq r' r := by
  induction items with
  | nil =>
    intro store now i r r' h h'
    simp only [updateDatabase] at h'
    rw [h] at h'
    injection h' with h'
    subst h'
    exact ⟨rfl, rfl, rfl, rfl⟩
  | cons a rest ih =>
    intro store now i r r' h h'
    simp only [updateDatabase] at h'
    have hi : i < store.length := by
      by_contra hlt
      rw [List.getElem?_eq_none (by omega)] at h
      cases h
    have hlen : i < ((processOne now store a).1).length := by
      simp only [processOne]
      cases hfind : store.find? (keyMatch (prepAssignment a)) with
      | some q =>
        simp only [hfind, replaceFirst_length]
        exact hi
      | none =>
        simp only [hfind, List.length_append]
        omega
    have hr1 : ((processOne now store a).1)[i]? =
        some (((processOne now store a).1).get ⟨i, hlen⟩) :=
      List.getElem?_eq_getElem hlen
    exact userFieldsEq_trans (ih _ now i _ r' hr1 h')
      (processOne_userFields now store a i r _ h hr1)

/-- Witness for the C1 amended theorem at the counterexample's own input:
the notes, estimate and planned dates of `c1Rec` survive the run that
overwrote its status. -/
theorem reconcile_preserves_user_fields_witness :
    ∃ r', ((updateDatabase [c1Rec] [c1Obs] (("t0").data)).1)[0]? = some r' ∧
      userFieldsEq r' c1Rec := by
  refine ⟨((updateDatabase [c1Rec] [c1Obs] (("t0").data)).1).head (by decide),
    ?_, ?_⟩
  · decide
  · exact reconcile_preserves_user_fields [c1Obs] [c1Rec] (("t0").data) 0
      c1Rec _ (by decide) (by decide)

/-! ## C5: idempotence of reconciliation -/

theorem find?_append_none {p : Record → Bool} {l1 : Store} (l2 : Store)
    (h : l1.find? p = none) : (l1 ++ l2).find? p = l2.find? p := by
  induction l1 with
  | nil => rfl
  | cons a t ih =>
    cases hp : p a with
    | true => simp [List.find?, hp] at h
    | false =>
      simp only [List.find?, hp] at h
      simpa [List.find?, hp] using ih h

theorem find?_append_some {p : Record → Bool} {l1 : Store} (l2 : Store)
    {r : Record} (h : l1.find? p = some r) : (l1 ++ l2).find? p = some r := by
  induction l1 with
  | nil => simp [List.find?] at h
  | cons a t ih =>
    cases hp : p a with
    | true =>
      simp only [List.find?, hp] at h
      simpa [List.find?, hp] using h
    | false =>
      simp only [List.find?, hp] at h
      simpa [List.find?, hp] using ih h

theorem updateRecord_title (q : Record) (a : Assignment) (now : Str) :
    ((updateRecord q a now).1).title = q.title := rfl

theorem updateRecord_courseName (q : Record) (a : Assignment) (now : Str) :
    ((updateRecord q a now).1).courseName = q.courseName := rfl

theorem keyMatch_updateRecord (b : Assignment) (q : Record) (a : Assignment)
    (now : Str) : keyMatch b ((updateRecord q a now).1) = keyMatch b q := rfl

/-- Replacing the first `p`-row by an update that keeps `p` true leaves the
`p`-lookup pointing at the updated row. -/
theorem find?_replaceFirst_self {p : Record → Bool} {f : Record → Record}
    (hpf : ∀ q, p (f q) = p q) :
    ∀ {l : Store} {r : Record}, l.find? p = some r →
    (replaceFirst p f l).find? p = some (f r) := by
  intro l
  induction l with
  | nil => intro r h; simp [List.find?] at h
  | cons a t ih =>
    intro r h
    cases hp : p a with
    | true =>
      simp only [List.find?, hp] at h
      injection h with h
      subst h
      simp [replaceFirst, hp, List.find?, hpf]
    | false =>
      simp only [List.find?, hp] at h
      simpa [replaceFirst, hp, List.find?] using ih h

/-- Replacing the first `p`-row does not disturb a `p'`-lookup when no
`p`-row (before or after the rewrite) can satisfy `p'`. -/
theorem find?_replaceFirst_other {p p' : Record → Bool} {f : Record → Record}
    (hd : ∀ q, p q = true → p' q = false)
    (hd' : ∀ q, p q = true → p' (f q) = false) :
    ∀ (l : Store), (replaceFirst p f l).find? p' = l.find? p' := by
  intro l
  induction l with
  | nil => rfl
  | cons a t ih =>
    cases hp : p a with
    | true =>
      simp [replaceFirst, hp, List.find?, hd a hp, hd' a hp]
    | false =>
      cases hp' : p' a with
      | true => simp [replaceFirst, hp, List.find?, hp']
      | false => simpa [replaceFirst, hp, List.find?, hp'] using ih

/-- Two observed items with different identity keys. -/
def KeyDiff (a b : Assignment) : Prop :=
  a.title ≠ b.title ∨ a.courseName ≠ b.courseName

theorem KeyDiff.symm {a b : Assignment} (h : KeyDiff a b) : KeyDiff b a := by
  rcases h with h | h
  · exact Or.inl (Ne.symm h)
  · exact Or.inr (Ne.symm h)

theorem keyMatch_disjoint {a b : Assignment} (hd : KeyDiff a b) :
    ∀ q, keyMatch b q = true → keyMatch a q = false := by
  intro q hq
  simp only [keyMatch, Bool.and_eq_true, decide_eq_true_eq] at hq
  cases hqa : keyMatch a q with
  | false => rfl
  | true =>
    simp only [keyMatch, Bool.and_eq_true, decide_eq_true_eq] at hqa
    rcases hd with h | h
    · exact absurd (hqa.1.symm.trans hq.1) h
    · exact absurd (hqa.2.symm.trans hq.2) h

/-- The record a later lookup for `a` will see agrees with `a` on due date
and description. -/
def GoodFor (store : Store) (a : Assignment) : Prop :=
  ∃ r, store.find? (keyMatch a) = some r ∧
    r.dueDate = a.dueDate ∧ r.description = a.description

theorem insertRecord_keyMatch (a : Assignment) (now : Str) :
    keyMatch a (insertRecord a now) = true := by
  simp [keyMatch, insertRecord]

/-- Processing a prep-stable item with a truthy due date leaves the store
good for that item, whether it inserted or updated. -/
theorem processOne_good (now : Str) (store : Store) (a : Assignment)
    (hfix : prepAssignment a = a) (hdue : truthyOpt a.dueDate = true) :
    GoodFor ((processOne now store a).1) a ∧
    (processOne now store a).2.1 = a := by
  have h21 : (processOne now store a).2.1 = a := by
    simp only [processOne, hfix]
    cases hfind : store.find? (keyMatch a) <;> simp [hfind]
  refine ⟨?_, h21⟩
  simp only [processOne, hfix]
  cases hfind : store.find? (keyMatch a) with
  | some r =>
    simp only [hfind]
    refine ⟨(updateRecord r a now).1,
      find?_replaceFirst_self (fun q => keyMatch_updateRecord a q a now)
        hfind, ?_, ?_⟩
    · cases hch : (decide ¬r.dueDate = a.dueDate
          || decide ¬r.description = a.description) with
      | true =>
        show (if (decide ¬r.dueDate = a.dueDate
            || decide ¬r.description = a.description) && truthyOpt a.dueDate
          then a.dueDate else r.dueDate) = a.dueDate
        rw [hch, hdue]
        rfl
      | false =>
        have hb := hch
        simp only [Bool.or_eq_false_iff, decide_eq_false_iff_not,
          Decidable.not_not] at hb
        show (if (decide ¬r.dueDate = a.dueDate
            || decide ¬r.description = a.description) && truthyOpt a.dueDate
          then a.dueDate else r.dueDate) = a.dueDate
        rw [hch]
        simpa using hb.1
    · cases hch : (decide ¬r.dueDate = a.dueDate
          || decide ¬r.description = a.description) with
      | true =>
        show (if (decide ¬r.dueDate = a.dueDate
            || decide ¬r.description = a.description) && truthyOpt a.dueDate
          then a.description else r.description) = a.description
        rw [hch, hdue]
        rfl
      | false =>
        have hb := hch
        simp only [Bool.or_eq_false_iff, decide_eq_false_iff_not,
          Decidable.not_not] at hb
        show (if (decide ¬r.dueDate = a.dueDate
            || decide ¬r.description = a.description) && truthyOpt a.dueDate
          then a.description else r.description) = a.description
        rw [hch]
        simpa using hb.2
  | none =>
    simp only [hfind]
    refine ⟨insertRecord a now, ?_, rfl, rfl⟩
    rw [find?_append_none _ hfind]
    simp [List.find?, insertRecord_keyMatch]

/-- Processing an item with a different key preserves goodness. -/
theorem processOne_preserves_good (now : Str) (store : Store)
    (b a : Assignment) (hfixb : prepAssignment b = b) (hd : KeyDiff a b)
    (hg : GoodFor store a) : GoodFor ((processOne now store b).1) a := by
  obtain ⟨r, hr, hdue, hdesc⟩ := hg
  simp only [processOne, hfixb]
  cases hfind : store.find? (keyMatch b) with
  | some q =>
    simp only [hfind]
    refine ⟨r, ?_, hdue, hdesc⟩
    rw [find?_replaceFirst_other (keyMatch_disjoint hd)
      (fun q hq => by
        rw [keyMatch_updateRecord]
        exact keyMatch_disjoint hd q hq)]
    exact hr
  | none =>
    simp only [hfind]
    exact ⟨r, find?_append_some _ hr, hdue, hdesc⟩

/-- Processing an item against a store that is already good for it counts
it as unchanged and keeps the store good. -/
theorem processOne_on_good (now : Str) (store : Store) (a : Assignment)
    (hfix : prepAssignment a = a) (hg : GoodFor store a) :
    (processOne now store a).2.2 = ChangeKind.unchangedK ∧
    GoodFor ((processOne now store a).1) a ∧
    (processOne now store a).2.1 = a := by
  obtain ⟨r, hr, hdue, hdesc⟩ := hg
  have hch : (decide ¬r.dueDate = a.dueDate
      || decide ¬r.description = a.description) = false := by
    simp [hdue, hdesc]
  refine ⟨?_, ⟨(updateRecord r a now).1, ?_, ?_, ?_⟩, ?_⟩
  · have hf : (updateRecord r a now).2 = false := hch
    simp [processOne, hfix, hr, hf]
  · show ((processOne now store a).1).find? (keyMatch a)
      = some ((updateRecord r a now).1)
    simp only [processOne, hfix, hr]
    exact find?_replaceFirst_self (fun q => keyMatch_updateRecord a q a now) hr
  · show (if (decide ¬r.dueDate = a.dueDate
        || decide ¬r.description = a.description) && truthyOpt a.dueDate
      then a.dueDate else r.dueDate) = a.dueDate
    rw [hch]
    simpa using hdue
  · show (if (decide ¬r.dueDate = a.dueDate
        || decide ¬r.description = a.description) && truthyOpt a.dueDate
      then a.description else r.description) = a.description
    rw [hch]
    simpa using hdesc
  · simp [processOne, hfix, hr]

/-- A whole reconciliation pass over items with keys different from `a`
preserves goodness for `a`. -/
theorem updateDatabase_preserves_good (now : Str) :
    ∀ (items : List Assignment) (store : Store) (a : Assignment),
    (∀ b ∈ items, prepAssignment b = b) → (∀ b ∈ items, KeyDiff a b) →
    GoodFor store a → GoodFor ((updateDatabase store items now).1) a := by
  intro items
  induction items with
  | nil => intro store a _ _ hg; exact hg
  | cons b rest ih =>
    intro store a hfix hkd hg
    simp only [updateDatabase]
    exact ih _ a (fun x hx => hfix x (by simp [hx]))
      (fun x hx => hkd x (by simp [hx]))
      (processOne_preserves_good now store b a (hfix b (by simp))
        (hkd b (by simp)) hg)

/-- After the first pass, the store is good for every processed item, and
the mutated list equals the input list (prep-stable items). -/
theorem run1_good (n1 : Str) :
    ∀ (items : List Assignment) (store : Store),
    (∀ b ∈ items, prepAssignment b = b ∧ truthyOpt b.dueDate = true) →
    items.Pairwise KeyDiff →
    (∀ a ∈ items, GoodFor ((updateDatabase store items n1).1) a) ∧
    (updateDatabase store items n1).2.1 = items := by
  intro items
  induction items with
  | nil => intro store _ _; exact ⟨by simp, rfl⟩
  | cons a rest ih =>
    intro store H P
    have hfa := H a (by simp)
    have hPrest := (List.pairwise_cons.mp P).2
    have hPhead := (List.pairwise_cons.mp P).1
    have hstep := processOne_good n1 store a hfa.1 hfa.2
    obtain ⟨ihg, ihl⟩ := ih ((processOne n1 store a).1)
      (fun b hb => H b (by simp [hb])) hPrest
    constructor
    · intro x hx
      rcases List.mem_cons.mp hx with hx | hx
      · subst hx
        simp only [updateDatabase]
        exact updateDatabase_preserves_good n1 rest _ x
          (fun b hb => (H b (by simp [hb])).1)
          (fun b hb => hPhead b hb) hstep.1
      · simp only [updateDatabase]
        exact ihg x hx
    · simp only [updateDatabase]
      rw [hstep.2, ihl]

/-- A pass over prep-stable, pairwise-distinct items against a store that
is good for all of them counts everything as unchanged. -/
theorem run2_all_unchanged (n2 : Str) :
    ∀ (items : List Assignment) (store : Store),
    (∀ b ∈ items, prepAssignment b = b) → items.Pairwise KeyDiff →
    (∀ b ∈ items, GoodFor store b) →
    (updateDatabase store items n2).2.2 =
      { new := 0, modified := 0, unchanged := items.length, errors := 0 } := by
  intro items
  induction items with
  | nil => intro store _ _ _; rfl
  | cons a rest ih =>
    intro store hfix P hg
    have hstep := processOne_on_good n2 store a (hfix a (by simp))
      (hg a (by simp))
    have hPhead := (List.pairwise_cons.mp P).1
    have hrest : ∀ b ∈ rest, GoodFor ((processOne n2 store a).1) b := by
      intro b hb
      exact processOne_preserves_good n2 store a b (hfix a (by simp))
        (KeyDiff.symm (hPhead b hb)) (hg b (by simp [hb]))
    have := ih ((processOne n2 store a).1) (fun b hb => hfix b (by simp [hb]))
      (List.pairwise_cons.mp P).2 hrest
    simp only [updateDatabase, this, hstep.1, bumpSummary]
    simp [List.length_cons]

/-- C5 amended: reconciliation is idempotent for observed lists whose
items are stable under the in-place cleaning step, have truthy due dates,
and carry pairwise-distinct identity keys: the second pass over the same
(mutated) list yields `new = 0` and `modified = 0`. -/
theorem reconcile_idempotent_amended (store : Store)
    (items : List Assignment) (n1 n2 : Str)
    (H : ∀ b ∈ items, prepAssignment b = b ∧ truthyOpt b.dueDate = true)
    (P : items.Pairwise KeyDiff) :
    ((updateDatabase (updateDatabase store items n1).1
        (updateDatabase store items n1).2.1 n2).2.2).new = 0 ∧
    ((updateDatabase (updateDatabase store items n1).1
        (updateDatabase store items n1).2.1 n2).2.2).modified = 0 := by
  obtain ⟨hgood, hlist⟩ := run1_good n1 items store H P
  rw [hlist]
  rw [run2_all_unchanged n2 items _ (fun b hb => (H b hb).1) P hgood]
  exact ⟨rfl, rfl⟩

/-- Witness for the amended C5 theorem: a fresh store and one clean
observed item with a due date. -/
theorem reconcile_idempotent_amended_witness :
    ((updateDatabase (updateDatabase []
        [{ title := ("HW 2").data, courseName := ("CS 142").data,
           dueDate := some ("2025-02-01").data,
           description := some ("read ch 3").data, link := none,
           status := Status.notStarted, assignmentType := none,
           lsCid := none }] (("t1").data)).1
      (updateDatabase []
        [{ title := ("HW 2").data, courseName := ("CS 142").data,
           dueDate := some ("2025-02-01").data,
           description := some ("read ch 3").data, link := none,
           status := Status.notStarted, assignmentType := none,
           lsCid := none }] (("t1").data)).2.1 (("t2").data)).2.2).new = 0 ∧
    ((updateDatabase (updateDatabase []
        [{ title := ("HW 2").data, courseName := ("CS 142").data,
           dueDate := some ("2025-02-01").data,
           description := some ("read ch 3").data, link := none,
           status := Status.notStarted, assignmentType := none,
           lsCid := none }] (("t1").data)).1
      (updateDatabase []
        [{ title := ("HW 2").data, courseName := ("CS 142").data,
           dueDate := some ("2025-02-01").data,
           description := some ("read ch 3").data, link := none,
           status := Status.notStarted, assignmentType := none,
           lsCid := none }] (("t1").data)).2.1 (("t2").data)).2.2).modified
      = 0 :=
  reconcile_idempotent_amended [] _ (("t1").data) (("t2").data)
    (by intro b hb; simp only [List.mem_singleton] at hb; subst hb
        exact ⟨by decide, by decide⟩)
    (by simp)

/-- The store/observation pair refuting idempotence as claimed: the
record's description differs from the observation while the observed due
date is absent, so each pass counts it "modified" without ever writing the
new description. -/
def c5Rec : Record :=
  { title := ("Essay").data, courseName := ("WRTG 150").data, dueDate := none,
    description := some ("old prompt").data, link := none,
    learningSuiteUrl := none, status := Status.notStarted,
    isModified := false, lastScrapedAt := none, assignmentType := none,
    lsCid := none, notes := none, estimatedMinutes := none,
    plannedStart := none, plannedEnd := none }

def c5Obs : Assignment :=
  { title := ("Essay").data, courseName := ("WRTG 150").data, dueDate := none,
    description := some ("new prompt").data, link := none,
    status := Status.notStarted, assignmentType := none, lsCid := none }

/-- C5 counterexample: running `update_database` twice on the same list
with no store change in between still reports `modified = 1` on the second
run, refuting the idempotence claim. -/
theorem reconcile_not_idempotent :
    ((updateDatabase (updateDatabase [c5Rec] [c5Obs] (("t1").data)).1
        (updateDatabase [c5Rec] [c5Obs] (("t1").data)).2.1
        (("t2").data)).2.2).modified = 1 := by decide

/-! ## C9: persisted links and the rotating session segment -/

/-- A URL carries a session-scoped segment right after the host: it starts
with `https://learningsuite.byu.edu/.` followed by at least one
alphanumeric character. -/
def hasSessionSegmentAfterHost (u : Str) : Bool :=
  startsWithL u (("https://learningsuite.byu.edu/.").data) &&
  !((u.drop (("https://learningsuite.byu.edu/.").data).length).takeWhile
      isAlnum).isEmpty

theorem startsWithL_refl (p : Str) : startsWithL p p = true := by
  induction p with
  | nil => rfl
  | cons c cs ih => simp [startsWithL, ih]

theorem startsWithL_self_append (p t : Str) : startsWithL (p ++ t) p = true := by
  induction p with
  | nil => cases t <;> rfl
  | cons c cs ih => simp [startsWithL, ih]

theorem startsWithL_append_both (X u v : Str) :
    startsWithL (X ++ u) (X ++ v) = startsWithL u v := by
  induction X with
  | nil => rfl
  | cons c cs ih => simp [startsWithL, ih]

theorem takeWhile_append_all {p : Char → Bool} {l1 : Str} {c : Char}
    (t : Str) (h : ∀ x ∈ l1, p x = true) (hc : p c = false) :
    (l1 ++ c :: t).takeWhile p = l1 ∧ (l1 ++ c :: t).drop l1.length = c :: t := by
  constructor
  · induction l1 with
    | nil => simp [List.takeWhile, hc]
    | cons a as ih =>
      have ha : p a = true := h a (by simp)
      simp only [List.cons_append, List.takeWhile_cons, ha, if_true,
        List.cons.injEq]
      exact ⟨trivial, ih (fun x hx => h x (by simp [hx]))⟩
  · exact List.drop_left l1 (c :: t)

theorem searchSession_of_match {s cap : Str} (h : matchSessionAt s = some cap) :
    searchSession s = some cap := by
  cases s with
  | nil => simpa [searchSession] using h
  | cons c t => simp [searchSession, h]

/-- The match of the session-segment pattern at position zero of
`https://learningsuite.byu.edu/.<seg>/<rest>`. -/
theorem matchSessionAt_full (seg rest : Str) (hseg : ¬seg = [])
    (halnum : ∀ c ∈ seg, isAlnum c = true) :
    matchSessionAt ((("https://learningsuite.byu.edu/.").data)
        ++ seg ++ '/' :: rest) = some ('/' :: rest) := by
  have hsw := startsWithL_self_append (("https://learningsuite.byu.edu/.").data)
    (seg ++ '/' :: rest)
  have hdrop := List.drop_left (("https://learningsuite.byu.edu/.").data)
    (seg ++ '/' :: rest)
  have htw := takeWhile_append_all rest halnum
    (show isAlnum '/' = false by decide)
  rw [matchSessionAt]
  simp only [← List.append_assoc] at hsw hdrop ⊢
  rw [hsw]
  simp only [if_true]
  rw [hdrop]
  rw [htw.1, htw.2]
  have hne : seg.isEmpty = false := by
    cases seg with
    | nil => exact absurd rfl hseg
    | cons a b => rfl
  simp [hne]

/-- C9 amended: a persisted-link URL whose session segment is followed by
a path component is rewritten onto the static base; when a non-empty cid
is supplied and the path does not already mention `cid-`, the durable
`/cid-` form is produced and the stored link carries no session segment
immediately after the host.  (Bare session URLs with no trailing path are
not rewritten — that is the counterexample.) -/
theorem sanitizeUrl_rewrites_pathful (seg rest cid : Str)
    (hseg : ¬seg = []) (halnum : ∀ c ∈ seg, isAlnum c = true)
    (hcid : ¬cid = [])
    (hnocid : containsSub ('/' :: rest) (("cid-").data) = false) :
    sanitizeUrl ((("https://learningsuite.byu.edu/.").data)
        ++ seg ++ '/' :: rest) (some cid)
      = lsBase ++ ("/cid-").data ++ cid ++ '/' :: rest ∧
    hasSessionSegmentAfterHost
      (lsBase ++ ("/cid-").data ++ cid ++ '/' :: rest) = false := by
  constructor
  · rw [sanitizeUrl]
    rw [searchSession_of_match (matchSessionAt_full seg rest hseg halnum)]
    have htr : truthyOpt (some cid) = true := by
      cases cid with
      | nil => exact absurd rfl hcid
      | cons a b => rfl
    simp [htr, hnocid]
  · rw [hasSessionSegmentAfterHost]
    have hX : (("https://learningsuite.byu.edu/.").data)
        = (("https://learningsuite.byu.edu/").data) ++ ['.'] := by decide
    have h1 : lsBase ++ ("/cid-").data
        = (("https://learningsuite.byu.edu/").data)
          ++ ['c', 'i', 'd', '-'] := by decide
    have hY : lsBase ++ ("/cid-").data ++ cid ++ '/' :: rest
        = (("https://learningsuite.byu.edu/").data)
          ++ ('c' :: 'i' :: 'd' :: '-' :: (cid ++ '/' :: rest)) := by
      calc lsBase ++ ("/cid-").data ++ cid ++ '/' :: rest
          = (lsBase ++ ("/cid-").data) ++ (cid ++ '/' :: rest) := by
            simp [List.append_assoc]
        _ = ((("https://learningsuite.byu.edu/").data) ++ ['c', 'i', 'd', '-'])
            ++ (cid ++ '/' :: rest) := by rw [h1]
        _ = (("https://learningsuite.byu.edu/").data)
            ++ ('c' :: 'i' :: 'd' :: '-' :: (cid ++ '/' :: rest)) := by
            simp
    rw [hX, hY, startsWithL_append_both]
    rfl

/-- Witness for the C9 amended theorem on a concrete session URL. -/
theorem sanitizeUrl_rewrites_pathful_witness :
    sanitizeUrl ((("https://learningsuite.byu.edu/.").data)
        ++ ("9dem").data ++ '/' :: ("assignment/XXX").data)
        (some (("123").data))
      = lsBase ++ ("/cid-").data ++ ("123").data
          ++ '/' :: ("assignment/XXX").data ∧
    hasSessionSegmentAfterHost
      (lsBase ++ ("/cid-").data ++ ("123").data
        ++ '/' :: ("assignment/XXX").data) = false :=
  sanitizeUrl_rewrites_pathful (("9dem").data) (("assignment/XXX").data)
    (("123").data) (by decide) (by decide) (by decide) (by decide)

def c9Url : Str := ("https://learningsuite.byu.edu/.9dem").data

/-- The observed assignment refuting C9 as stated: its link is exactly a
session-scoped base address with no trailing path, which `_sanitize_url`
returns unchanged. -/
def c9Obs : Assignment :=
  { title := ("Final").data, courseName := ("MATH 110").data, dueDate := none,
    description := none, link := some c9Url, status := Status.notStarted,
    assignmentType := none, lsCid := some ("12345").data }

/-- C9 counterexample: `update_database` persists a link that still
carries the rotating session segment immediately after the host, because
the sanitizer's pattern requires a path component after the segment. -/
theorem reconcile_stores_session_link :
    ((updateDatabase [] [c9Obs] (("t0").data)).1.head?.map Record.link)
      = some (some c9Url) ∧
    hasSessionSegmentAfterHost c9Url = true := by decide

/-! ## C7: the guarded navigation primitive `_safe_navigate` -/

/-- The environment one navigation attempt observes: the session-validity
check after the `driver.get`, the result a `_refresh_session` call would
produce, the error-page check, whether the landed URL is still on
`learningsuite.byu.edu`, and whether the course (`cid-`) context survived.
Exceptions (timeouts) return failure without any refresh and are subsumed
by the failing checks for the resource bounds proved here. -/
structure NavOutcome where
  sessionValid : Bool
  refreshOk : Bool
  errorPage : Bool
  onLearningSuite : Bool
  cidPreserved : Bool
  deriving DecidableEq, Fintype

/-- What one `_safe_navigate` call did: its return value, how many
`_refresh_session` attempts it made, and how many `driver.get`
navigations it performed. -/
structure NavResult where
  ok : Bool
  refreshes : Nat
  navigations : Nat
  deriving DecidableEq, Repr

/-- `_safe_navigate` with `retry_on_session_expire=False`: the branch
structure of the source with both refresh-and-retry arms disabled. -/
def safeNavigateNoRetry (o : NavOutcome) : NavResult :=
  if !o.sessionValid then ⟨false, 0, 1⟩
  else if o.errorPage then ⟨false, 0, 1⟩
  else if !o.onLearningSuite then ⟨false, 0, 1⟩
  else if !o.cidPreserved then ⟨false, 0, 1⟩
  else ⟨true, 0, 1⟩

/-- `_safe_navigate` with `retry_on_session_expire=True`: on an invalid
session (or an off-site redirect) it attempts one `_refresh_session`; if
that succeeds it re-invokes itself once with retry disabled; the second
attempt observes `o2`. -/
def safeNavigate (o1 o2 : NavOutcome) : NavResult :=
  if !o1.sessionValid then
    if o1.refreshOk then
      let r := safeNavigateNoRetry o2
      ⟨r.ok, r.refreshes + 1, r.navigations + 1⟩
    else ⟨false, 1, 1⟩
  else if o1.errorPage then ⟨false, 0, 1⟩
  else if !o1.onLearningSuite then
    if o1.refreshOk then
      let r := safeNavigateNoRetry o2
      ⟨r.ok, r.refreshes + 1, r.navigations + 1⟩
    else ⟨false, 1, 1⟩
  else if !o1.cidPreserved then ⟨false, 0, 1⟩
  else ⟨true, 0, 1⟩

/-- C7: a retry-enabled guarded navigation performs at most one session
refresh and at most two navigation attempts (recursion depth two), and the
retried call itself never refreshes — so `_safe_navigate` terminates. -/
theorem safeNavigate_bounded :
    ∀ o1 o2 : NavOutcome,
    (safeNavigate o1 o2).refreshes ≤ 1 ∧
    (safeNavigate o1 o2).navigations ≤ 2 ∧
    (safeNavigateNoRetry o2).refreshes = 0 ∧
    (safeNavigateNoRetry o2).navigations = 1 := by decide

/-! ## C8: session-restore verification in `inject_cookies` -/

/-- `SESSION_EXPIRED_INDICATORS` from the source. -/
def sessionExpiredIndicators : List Str :=
  [ ("session expired").data
  , ("please sign in").data
  , ("log in to continue").data
  , ("your session has timed out").data
  , ("session has ended").data
  , ("authentication required").data ]

/-- The indicator loop of `_check_session_valid`: some session-expiry
marker occurs in the lower-cased page source. -/
def hasExpiryMarker (page : Str) : Bool :=
  sessionExpiredIndicators.any (fun ind => containsSub (lowerStr page) ind)

/-- `_check_session_valid` from the source: the current URL is not on the
CAS login domain, not on the Duo domain, not on an
authenticate/SAML/idp page, and the page shows no expiry marker. -/
def checkSessionValid (currentUrl page : Str) : Bool :=
  if containsSub currentUrl (("cas.byu.edu").data) then false
  else if containsSub (lowerStr currentUrl) (("duo").data) then false
  else if containsSub (lowerStr currentUrl) (("authenticate").data)
      || containsSub (lowerStr currentUrl) (("saml").data)
      || containsSub (lowerStr currentUrl) (("idp").data) then false
  else if hasExpiryMarker page then false
  else true

/-- The verification tail of `inject_cookies`: `url1` is the address after
the first hop (navigate to the session base), `url2` the address after the
deep-verification hop (`<base>/student/top`), and `page2` the page source
there.  Returns the function's Boolean result; cookie-injection errors are
caught and skipped by the source and do not affect the verification. -/
def injectCookiesVerify (url1 url2 page2 : Str) : Bool :=
  if containsSub url1 (("cas.byu.edu").data) then false
  else if containsSub (lowerStr url1) (("duo").data)
      || containsSub (lowerStr url1) (("authenticate").data)
      || containsSub (lowerStr url1) (("saml").data)
      || containsSub (lowerStr url1) (("idp").data) then false
  else if containsSub url2 (("cas.byu.edu").data)
      || containsSub (lowerStr url2) (("duo").data) then false
  else if !checkSessionValid url2 page2 then false
  else true

/-- Landing on the CAS login domain or on a multi-factor/auth domain, as
the claim words it: any of the checks the source applies to a hop URL. -/
def onLoginOrAuthDomain (u : Str) : Bool :=
  containsSub u (("cas.byu.edu").data)
  || containsSub (lowerStr u) (("duo").data)
  || containsSub (lowerStr u) (("authenticate").data)
  || containsSub (lowerStr u) (("saml").data)
  || containsSub (lowerStr u) (("idp").data)

/-- C8: session restore verification succeeds exactly when neither hop
lands on the login or a multi-factor/auth domain and no session-expired
marker appears in the deep-verification page — so it returns false
whenever any of these fail. -/
theorem injectCookies_verifies_both_hops (url1 url2 page2 : Str) :
    injectCookiesVerify url1 url2 page2 = true ↔
      (onLoginOrAuthDomain url1 = false ∧ onLoginOrAuthDomain url2 = false ∧
       hasExpiryMarker page2 = false) := by
  unfold injectCookiesVerify checkSessionValid onLoginOrAuthDomain
  generalize containsSub url1 (("cas.byu.edu").data) = a1
  generalize containsSub (lowerStr url1) (("duo").data) = a2
  generalize containsSub (lowerStr url1) (("authenticate").data) = a3
  generalize containsSub (lowerStr url1) (("saml").data) = a4
  generalize containsSub (lowerStr url1) (("idp").data) = a5
  generalize containsSub url2 (("cas.byu.edu").data) = b1
  generalize containsSub (lowerStr url2) (("duo").data) = b2
  generalize containsSub (lowerStr url2) (("authenticate").data) = b3
  generalize containsSub (lowerStr url2) (("saml").data) = b4
  generalize containsSub (lowerStr url2) (("idp").data) = b5
  generalize hasExpiryMarker page2 = m
  revert a1 a2 a3 a4 a5 b1 b2 b3 b4 b5 m
  decide

/-! ## C6: per-course progress reporting in `scrape_all_courses` -/

structure Course where
  name : Str
  deriving DecidableEq, Repr

/-- What the environment (site, session) does for one course of the main
loop: the pre-course session check, the refresh outcome if attempted, the
grades-view extraction (`none` models a raised exception), the in-except
session check and refresh, the inline retry extraction, the exams-tab
extraction, and the retry-phase behaviour for this course if it failed. -/
structure CourseEnv where
  validBefore : Bool
  refreshBefore : Bool
  grades1 : Option (List Assignment)
  validAfterFail : Bool
  refreshAfterFail : Bool
  gradesRetry : Option (List Assignment)
  exams : Option (List Assignment)
  retryValid : Bool
  retryGrades : Option (List Assignment)
  retryExams : Option (List Assignment)
  deriving Repr

/-- One invocation of the caller-supplied progress callback. -/
structure CallbackCall where
  cur : Nat
  total : Nat
  name : Str
  deriving DecidableEq, Repr

/-- The exams-tab supplement: add items whose titles are not yet present
(`existing_titles` dedup). -/
def examSupplement (titles : List Str) : List Assignment → List Assignment
  | [] => []
  | e :: rest =>
    if e.title ∈ titles then examSupplement titles rest
    else e :: examSupplement (e.title :: titles) rest

/-- The tail every non-`continue` path of the course loop runs: the
exams-tab supplement when the grades view yielded fewer than 5 items, then
the single end-of-iteration progress callback. -/
def processCourseFinish (i total : Nat) (c : Course) (env : CourseEnv)
    (g : List Assignment) (failed : Bool) :
    List CallbackCall × List Assignment × Bool :=
  let items := g ++ (if g.length < 5 then
    (match env.exams with
     | some ex => examSupplement (g.map Assignment.title) ex
     | none => []) else [])
  ([⟨i + 1, total, c.name⟩], items, failed)

/-- One iteration of the `for i, course in enumerate(courses)` loop of
`scrape_all_courses`: the session guard, the guarded grades extraction
with its one inline refresh-and-retry, the exams supplement, and the
progress callback; returns the calls made, the assignments collected, and
whether the course was queued for the end-of-run retry.  The keep-alive
and per-course database save do not touch the callback and are omitted. -/
def processCourse (i total : Nat) (c : Course) (env : CourseEnv) :
    List CallbackCall × List Assignment × Bool :=
  if !env.validBefore && !env.refreshBefore then
    ([⟨i + 1, total, c.name ++ (" (session error)").data⟩], [], true)
  else
    match env.grades1 with
    | some g => processCourseFinish i total c env g false
    | none =>
      if env.validAfterFail then processCourseFinish i total c env [] false
      else if env.refreshAfterFail then
        match env.gradesRetry with
        | some g => processCourseFinish i total c env g false
        | none => processCourseFinish i total c env [] true
      else ([⟨i + 1, total, c.name ++ (" (failed)").data⟩], [], true)

/-- The main course loop, carrying the enumeration index. -/
def mainLoop (total : Nat) :
    Nat → List (Course × CourseEnv) →
    List CallbackCall × List Assignment × List (Course × CourseEnv)
  | _, [] => ([], [], [])
  | i, (c, env) :: rest =>
    let here := processCourse i total c env
    let there := mainLoop total (i + 1) rest
    (here.1 ++ there.1, here.2.1 ++ there.2.1,
     (if here.2.2 then [(c, env)] else []) ++ there.2.2)

/-- One course of the end-of-run batch retry (no callback is invoked
there). -/
def retryCourse (c : Course) (env : CourseEnv) : List Assignment :=
  if !env.retryValid then []
  else match env.retryGrades with
    | none => []
    | some g =>
      g ++ (if g.length < 5 then
        (match env.retryExams with
         | some ex => examSupplement (g.map Assignment.title) ex
         | none => []) else [])

def retryPhase (sessionOk : Bool) :
    List (Course × CourseEnv) → List Assignment
  | [] => []
  | (c, env) :: rest =>
    if sessionOk then retryCourse c env ++ retryPhase sessionOk rest
    else []

/-- `scrape_all_courses` from the source: early return on no courses, the
initial `(0, total, "Starting...")` callback, the main loop, and the batch
retry of failed courses (which emits no callbacks).  `retrySessionOk`
models `_check_session_valid() or _refresh_session()` before the batch
retry. -/
def scrapeAllCourses (cs : List (Course × CourseEnv))
    (retrySessionOk : Bool) : List CallbackCall × List Assignment :=
  if cs.isEmpty then ([], [])
  else
    (⟨0, cs.length, ("Starting...").data⟩ :: (mainLoop cs.length 0 cs).1,
     (mainLoop cs.length 0 cs).2.1
       ++ retryPhase retrySessionOk (mainLoop cs.length 0 cs).2.2)

theorem processCourse_one_call (i total : Nat) (c : Course) (env : CourseEnv) :
    ∃ nm, (processCourse i total c env).1 = [⟨i + 1, total, nm⟩] ∧
      startsWithL nm c.name = true := by
  unfold processCourse processCourseFinish
  cases hv : (!env.validBefore && !env.refreshBefore) with
  | true =>
    exact ⟨c.name ++ (" (session error)").data, by simp [hv],
      startsWithL_self_append _ _⟩
  | false =>
    cases hg : env.grades1 with
    | some g => exact ⟨c.name, by simp [hv, hg], startsWithL_refl _⟩
    | none =>
      cases hva : env.validAfterFail with
      | true => exact ⟨c.name, by simp [hv, hg, hva], startsWithL_refl _⟩
      | false =>
        cases hra : env.refreshAfterFail with
        | true =>
          cases hgr : env.gradesRetry with
          | some g =>
            exact ⟨c.name, by simp [hv, hg, hva, hra, hgr],
              startsWithL_refl _⟩
          | none =>
            exact ⟨c.name, by simp [hv, hg, hva, hra, hgr],
              startsWithL_refl _⟩
        | false =>
          exact ⟨c.name ++ (" (failed)").data, by simp [hv, hg, hva, hra],
            startsWithL_self_append _ _⟩

theorem mainLoop_calls (total : Nat) :
    ∀ (cs : List (Course × CourseEnv)) (i : Nat),
    List.Forall₂ (fun (call : CallbackCall) (ce : Course × CourseEnv) =>
        call.total = total ∧ startsWithL call.name ce.1.name = true)
      ((mainLoop total i cs).1) cs ∧
    ((mainLoop total i cs).1).map CallbackCall.cur
      = List.range' (i + 1) cs.length := by
  intro cs
  induction cs with
  | nil => intro i; exact ⟨List.Forall₂.nil, rfl⟩
  | cons ce rest ih =>
    intro i
    obtain ⟨nm, hnm, hpre⟩ := processCourse_one_call i total ce.1 ce.2
    have hh : (mainLoop total i (ce :: rest)).1
        = (processCourse i total ce.1 ce.2).1 ++ (mainLoop total (i + 1) rest).1 := by
      cases ce with
      | mk c env => rfl
    constructor
    · rw [hh, hnm]
      exact List.Forall₂.cons ⟨rfl, hpre⟩ (ih (i + 1)).1
    · rw [hh, hnm]
      simp only [List.map_append, List.map_cons, List.map_nil,
        List.singleton_append, List.length_cons]
      rw [(ih (i + 1)).2]
      rfl

/-- C6: for a non-empty course list, `scrape_all_courses` invokes the
progress callback once up front with processed-count 0 and then exactly
once per course — failed courses included — with processed-count `i + 1`,
the fixed course total, and a message carrying that course's name; the
reported counts are `0, 1, ..., n`, strictly increasing. -/
theorem scrape_progress_exactly_once_per_course
    (cs : List (Course × CourseEnv)) (r : Bool) (hne : cs ≠ []) :
    ∃ calls,
      (scrapeAllCourses cs r).1
        = ⟨0, cs.length, ("Starting...").data⟩ :: calls ∧
      List.Forall₂ (fun (call : CallbackCall) (ce : Course × CourseEnv) =>
          call.total = cs.length ∧ startsWithL call.name ce.1.name = true)
        calls cs ∧
      ((scrapeAllCourses cs r).1).map CallbackCall.cur
        = List.range (cs.length + 1) := by
  have hemp : cs.isEmpty = false := by
    cases cs with
    | nil => exact absurd rfl hne
    | cons a b => rfl
  refine ⟨(mainLoop cs.length 0 cs).1, ?_, (mainLoop_calls cs.length cs 0).1, ?_⟩
  · simp [scrapeAllCourses, hemp]
  · simp only [scrapeAllCourses, hemp, Bool.false_eq_true, if_false,
      List.map_cons]
    rw [(mainLoop_calls cs.length cs 0).2]
    rw [List.range_eq_range']
    rfl

/-- Witness for C6: a two-course run in which the first course fails its
session refresh and the second succeeds, still producing one callback per
course with counts 0, 1, 2. -/
theorem scrape_progress_exactly_once_per_course_witness :
    ∃ calls,
      (scrapeAllCourses
        [ (⟨("CS 142").data⟩,
           { validBefore := false, refreshBefore := false, grades1 := none,
             validAfterFail := false, refreshAfterFail := false,
             gradesRetry := none, exams := none, retryValid := false,
             retryGrades := none, retryExams := none }),
          (⟨("MATH 110").data⟩,
           { validBefore := true, refreshBefore := true, grades1 := some [],
             validAfterFail := true, refreshAfterFail := true,
             gradesRetry := none, exams := none, retryValid := true,
             retryGrades := none, retryExams := none }) ] true).1
        = ⟨0, 2, ("Starting...").data⟩ :: calls ∧
      List.Forall₂ (fun (call : CallbackCall) (ce : Course × CourseEnv) =>
          call.total = 2 ∧ startsWithL call.name ce.1.name = true)
        calls
        [ (⟨("CS 142").data⟩,
           { validBefore := false, refreshBefore := false, grades1 := none,
             validAfterFail := false, refreshAfterFail := false,
             gradesRetry := none, exams := none, retryValid := false,
             retryGrades := none, retryExams := none }),
          (⟨("MATH 110").data⟩,
           { validBefore := true, refreshBefore := true, grades1 := some [],
             validAfterFail := true, refreshAfterFail := true,
             gradesRetry := none, exams := none, retryValid := true,
             retryGrades := none, retryExams := none }) ] ∧
      ((scrapeAllCourses
        [ (⟨("CS 142").data⟩,
           { validBefore := false, refreshBefore := false, grades1 := none,
             validAfterFail := false, refreshAfterFail := false,
             gradesRetry := none, exams := none, retryValid := false,
             retryGrades := none, retryExams := none }),
          (⟨("MATH 110").data⟩,
           { validBefore := true, refreshBefore := true, grades1 := some [],
             validAfterFail := true, refreshAfterFail := true,
             gradesRetry := none, exams := none, retryValid := true,
             retryGrades := none, retryExams := none }) ] true).1).map
          CallbackCall.cur = List.range 3 :=
  scrape_progress_exactly_once_per_course _ true (by simp)

/-! ## C4: single-flight sync tasks (`SyncService.start_sync`) -/

/-- The `SyncStatus` enumeration of `sync_service.py`. -/
inductive SyncState where
  | pending
  | checkingSession
  | waitingForMfa
  | scraping
  | updatingDb
  | completed
  | failed
  deriving DecidableEq, Repr

/-- `status in [SyncStatus.COMPLETED, SyncStatus.FAILED]`. -/
def isTerminal : SyncState → Bool
  | SyncState.completed => true
  | SyncState.failed => true
  | _ => false

/-- The orchestrator's lock-protected state: the task map (ids are modelled
as naturals drawn from a fresh counter, standing for the uuid4 strings),
and the current-task pointer. -/
structure OrchState where
  tasks : List (Nat × SyncState)
  current : Option Nat
  nextId : Nat

def lookupTask (id : Nat) : List (Nat × SyncState) → Option SyncState
  | [] => none
  | (k, st) :: rest => if k = id then some st else lookupTask id rest

def setTask (id : Nat) (st : SyncState) :
    List (Nat × SyncState) → List (Nat × SyncState)
  | [] => []
  | (k, st0) :: rest =>
    if k = id then (k, st) :: rest else (k, st0) :: setTask id st rest

/-- The in-progress check of `start_sync`: a current task exists and is
not yet terminal. -/
def currentBusy (s : OrchState) : Bool :=
  match s.current with
  | some cid =>
    match lookupTask cid s.tasks with
    | some st => !isTerminal st
    | none => false
  | none => false

/-- `start_sync` from `sync_service.py`, run under the task lock: fail
fast when the current task is non-terminal, otherwise create one fresh
pending task and point `current` at it. -/
def startSync (s : OrchState) : OrchState × Option Nat × Option Str :=
  if currentBusy s then
    (s, none, some (("Sync already in progress").data))
  else
    ({ tasks := (s.nextId, SyncState.pending) :: s.tasks,
       current := some s.nextId, nextId := s.nextId + 1 },
     some s.nextId, none)

/-- What the `_run_sync` worker does to the shared state under the task
lock: it moves its own still-non-terminal task to another non-terminal
status (`_update_task`), or to a terminal status, and after the task is
terminal its `finally` block resets the current pointer if it still points
at that task.  (The worker never mutates its task again after setting a
terminal status, which is why `release` carries the terminality
precondition.) -/
inductive WorkerStep : OrchState → OrchState → Prop where
  | progress (s : OrchState) (id : Nat) (st st' : SyncState)
      (hl : lookupTask id s.tasks = some st) (h1 : isTerminal st = false)
      (h2 : isTerminal st' = false) :
      WorkerStep s { s with tasks := setTask id st' s.tasks }
  | finish (s : OrchState) (id : Nat) (st st' : SyncState)
      (hl : lookupTask id s.tasks = some st) (h1 : isTerminal st = false)
      (h2 : isTerminal st' = true) :
      WorkerStep s { s with tasks := setTask id st' s.tasks }
  | release (s : OrchState) (id : Nat) (st : SyncState)
      (hl : lookupTask id s.tasks = some st) (h2 : isTerminal st = true) :
      WorkerStep s
        { s with current := if s.current = some id then none else s.current }

/-- States reachable from process start (`_tasks = {}`,
`_current_task_id = None`) by `start_sync` calls and worker steps, all
serialized by the task lock. -/
inductive Reachable : OrchState → Prop where
  | init : Reachable { tasks := [], current := none, nextId := 0 }
  | start (s : OrchState) (h : Reachable s) : Reachable (startSync s).1
  | step (s s' : OrchState) (h : Reachable s) (hs : WorkerStep s s') :
      Reachable s'

/-- Every non-terminal task is the current one. -/
def NonTerminalCurrent (s : OrchState) : Prop :=
  ∀ id st, lookupTask id s.tasks = some st → isTerminal st = false →
    s.current = some id

/-- At most one task in the map is non-terminal. -/
def AtMostOneNonTerminal (s : OrchState) : Prop :=
  ∀ id1 st1 id2 st2, lookupTask id1 s.tasks = some st1 →
    isTerminal st1 = false → lookupTask id2 s.tasks = some st2 →
    isTerminal st2 = false → id1 = id2

theorem lookupTask_setTask_same {id : Nat} {st' : SyncState} :
    ∀ {l : List (Nat × SyncState)} {st0 : SyncState},
    lookupTask id l = some st0 →
    lookupTask id (setTask id st' l) = some st' := by
  intro l
  induction l with
  | nil => intro st0 h; simp [lookupTask] at h
  | cons a t ih =>
    intro st0 h
    by_cases hk : a.1 = id
    · cases a with
      | mk k s0 =>
        simp only at hk
        simp [setTask, lookupTask, hk]
    · cases a with
      | mk k s0 =>
        simp only at hk
        simp only [lookupTask, hk, if_false] at h
        simp only [setTask, hk, if_false, lookupTask]
        exact ih h

theorem lookupTask_setTask_other {id id' : Nat} {st' : SyncState}
    (hne : ¬id = id') :
    ∀ {l : List (Nat × SyncState)},
    lookupTask id (setTask id' st' l) = lookupTask id l := by
  intro l
  induction l with
  | nil => rfl
  | cons a t ih =>
    cases a with
    | mk k s0 =>
      by_cases hk : k = id'
      · subst hk
        have : ¬k = id := fun h => hne (h.symm ▸ rfl)
        simp [setTask, lookupTask, this]
      · simp only [setTask, hk, if_false, lookupTask]
        by_cases hk2 : k = id
        · simp [hk2]
        · simp only [hk2, if_false]
          exact ih

theorem ntc_startSync {s : OrchState} (h : NonTerminalCurrent s) :
    NonTerminalCurrent (startSync s).1 := by
  unfold startSync
  cases hb : currentBusy s with
  | true => simpa [hb] using h
  | false =>
    simp only [hb, Bool.false_eq_true, if_false]
    intro id st hl hnt
    simp only [lookupTask] at hl
    by_cases hk : s.nextId = id
    · simp [hk]
    · simp only [hk, if_false] at hl
      have hcur := h id st hl hnt
      exfalso
      simp only [currentBusy, hcur, hl, hnt] at hb
      simp at hb

theorem ntc_workerStep {s s' : OrchState} (h : NonTerminalCurrent s)
    (hs : WorkerStep s s') : NonTerminalCurrent s' := by
  cases hs with
  | progress id st st' hl h1 h2 =>
    intro id0 st0 hl0 hnt0
    by_cases hk : id0 = id
    · subst hk
      exact h id0 st hl h1
    · rw [lookupTask_setTask_other hk] at hl0
      exact h id0 st0 hl0 hnt0
  | finish id st st' hl h1 h2 =>
    intro id0 st0 hl0 hnt0
    by_cases hk : id0 = id
    · subst hk
      rw [lookupTask_setTask_same hl] at hl0
      injection hl0 with hl0
      subst hl0
      rw [h2] at hnt0
      cases hnt0
    · rw [lookupTask_setTask_other hk] at hl0
      exact h id0 st0 hl0 hnt0
  | release id st hl h2 =>
    intro id0 st0 hl0 hnt0
    have hl0' : lookupTask id0 s.tasks = some st0 := hl0
    have hcur := h id0 st0 hl0' hnt0
    have hne : ¬id0 = id := by
      intro he
      subst he
      rw [hl0'] at hl
      injection hl with hl
      subst hl
      rw [h2] at hnt0
      cases hnt0
    show (if s.current = some id then none else s.current) = some id0
    rw [hcur]
    have hne' : ¬(some id0 = some id) := fun hx => hne (by injection hx)
    simp [hne']

theorem ntc_reachable {s : OrchState} (h : Reachable s) :
    NonTerminalCurrent s := by
  induction h with
  | init => intro id st hl _; simp [lookupTask] at hl
  | start s h ih => exact ntc_startSync ih
  | step s s' h hs ih => exact ntc_workerStep ih hs

/-- C4: `start_sync` fails fast with the "already in progress" error and
creates nothing when the current task is non-terminal; otherwise it creates
exactly one fresh pending task and returns its id; at most one task in the
map is ever non-terminal in any reachable state; and of two back-to-back
`start_sync` calls (serialized by the task lock) the first succeeds and the
second fails without changing the state. -/
theorem startSync_single_flight :
    (∀ (s : OrchState) (cid : Nat) (st : SyncState), s.current = some cid →
      lookupTask cid s.tasks = some st → isTerminal st = false →
      startSync s = (s, none, some (("Sync already in progress").data))) ∧
    (∀ (s s' : OrchState) (id : Nat), startSync s = (s', some id, none) →
      lookupTask id s'.tasks = some SyncState.pending ∧
      s'.current = some id ∧ s'.tasks.length = s.tasks.length + 1 ∧
      startSync s' = (s', none, some (("Sync already in progress").data))) ∧
    (∀ s : OrchState, Reachable s → AtMostOneNonTerminal s) := by
  refine ⟨?_, ?_, ?_⟩
  · intro s cid st hc hl hnt
    have hb : currentBusy s = true := by
      simp only [currentBusy, hc, hl, hnt]
      rfl
    simp [startSync, hb]
  · intro s s' id h
    cases hb : currentBusy s with
    | true =>
      rw [startSync, hb, if_pos rfl] at h
      injection h with h1 h2
      injection h2 with h2 h3
      cases h2
    | false =>
      rw [startSync, hb] at h
      simp only [Bool.false_eq_true, if_false] at h
      injection h with h1 h2
      injection h2 with h2 h3
      injection h2 with h2
      subst h2
      subst h1
      refine ⟨by simp [lookupTask], rfl, by simp, ?_⟩
      have hb' : currentBusy { tasks := (s.nextId, SyncState.pending) :: s.tasks, current := some s.nextId, nextId := s.nextId + 1 } = true := by
        simp [currentBusy, lookupTask, isTerminal]
      simp [startSync, hb']
  · intro s hr id1 st1 id2 st2 hl1 hnt1 hl2 hnt2
    have h1 := ntc_reachable hr id1 st1 hl1 hnt1
    have h2 := ntc_reachable hr id2 st2 hl2 hnt2
    rw [h1] at h2
    injection h2

/-- A state with one pending (non-terminal) current task. -/
def c4Busy : OrchState :=
  { tasks := [(0, SyncState.pending)], current := some 0, nextId := 1 }

/-- Witness for C4: with task 0 pending and current, a `start_sync` call
fails fast leaving the state unchanged. -/
theorem startSync_single_flight_witness :
    startSync c4Busy
      = (c4Busy, none, some (("Sync already in progress").data)) :=
  startSync_single_flight.1 c4Busy 0 SyncState.pending rfl rfl rfl

/-! ## C10: `_run_sync` when session restore fails and no Canvas token -/

/-- What one Learning Suite scrape pass produced: the per-course database
summaries (`_per_course_db_results`) and the (truthy) course names of the
returned assignments. -/
structure ScrapeOut where
  dbResults : List Summary
  courseNames : List Str
  deriving Repr

/-- What the Canvas sync produced. -/
structure CanvasOut where
  result : Summary
  courseNames : List Str
  deriving Repr

/-- The environment one `_run_sync` execution observes: the auth-store
state, the session-restore and login-probe outcomes, and the results of
the scrape and Canvas calls (`Except.error` models a raised exception with
its message). -/
structure RunEnv where
  lsAuthenticated : Bool
  canvasToken : Option Str
  sessionData : Bool
  injectOk : Bool
  liveScraper : Bool
  alreadyLoggedIn : Bool
  scrape1 : Except Str ScrapeOut
  injectOk2 : Bool
  scrape2 : Except Str ScrapeOut
  canvas : Except Str CanvasOut
  deriving Repr

/-- The final, externally visible outcome of a `_run_sync` execution: the
task's terminal status, the durable run-metadata record (status text,
optional summary counts, optional error), and whether
`auth_store.clear_authentication()` was called. -/
structure RunResult where
  status : SyncState
  metaStatus : Str
  metaSummary : Option (Nat × Nat × Nat)
  metaError : Option Str
  authCleared : Bool
  deriving DecidableEq, Repr

/-- The scraping-failure session-error sniff of `_run_sync`. -/
def isSessionErrorMsg (msg : Str) : Bool :=
  [ ("session expired").data, ("please sign in").data, ("cas.byu.edu").data
  , ("authentication").data, ("login").data, ("redirected").data ].any
    (fun ind => containsSub (lowerStr msg) ind)

def sumNew (l : List Summary) : Nat := l.foldl (fun acc s => acc + s.new) 0

def sumModified (l : List Summary) : Nat :=
  l.foldl (fun acc s => acc + s.modified) 0

/-- Counters aggregated after a scrape pass: assignments added, modified,
and the number of distinct course names. -/
def scrapeCounts (out : ScrapeOut) : Nat × Nat × Nat :=
  (sumNew out.dbResults, sumModified out.dbResults,
   out.courseNames.eraseDups.length)

def notAuthMsg : Str :=
  ("Not authenticated. Please connect Learning Suite or Canvas first.").data

def recoveryFailMsg : Str :=
  ("Session expired during sync and could not be recovered. Please sign in again.").data

/-- `_run_sync` from `sync_service.py` as a pure function of its
environment.  There is no interactive-login path anywhere in this
procedure: a failed cookie restore clears the stored authentication and
simply leaves the run without a scraper.  Intermediate task statuses
(checking_session, scraping, updating_db) are not part of the observable
final outcome modelled here. -/
def runSync (env : RunEnv) : RunResult :=
  if !env.lsAuthenticated && !truthyOpt env.canvasToken then
    { status := SyncState.failed, metaStatus := ("failed").data,
      metaSummary := none, metaError := some notAuthMsg,
      authCleared := false }
  else
    let haveScraper := env.lsAuthenticated &&
      (if env.sessionData then env.injectOk
       else env.liveScraper || env.alreadyLoggedIn)
    let clearedAtRestore :=
      env.lsAuthenticated && env.sessionData && !env.injectOk
    let lsRes : Except (Str × Bool) (Nat × Nat × Nat) :=
      if haveScraper then
        match env.scrape1 with
        | Except.ok out => Except.ok (scrapeCounts out)
        | Except.error msg =>
          if isSessionErrorMsg msg && env.sessionData then
            if env.injectOk2 then
              match env.scrape2 with
              | Except.ok out => Except.ok (scrapeCounts out)
              | Except.error msg2 => Except.error (msg2, false)
            else Except.error (recoveryFailMsg, true)
          else Except.error (msg, false)
      else Except.ok (0, 0, 0)
    match lsRes with
    | Except.error e =>
      { status := SyncState.failed, metaStatus := ("failed").data,
        metaSummary := none, metaError := some e.1,
        authCleared := clearedAtRestore || e.2 }
    | Except.ok counts =>
      if truthyOpt env.canvasToken then
        match env.canvas with
        | Except.ok cout =>
          { status := SyncState.completed, metaStatus := ("success").data,
            metaSummary := some (counts.1 + cout.result.new,
              counts.2.1 + cout.result.modified,
              counts.2.2 + cout.courseNames.eraseDups.length),
            metaError := none, authCleared := clearedAtRestore }
        | Except.error cmsg =>
          if !env.lsAuthenticated then
            { status := SyncState.failed, metaStatus := ("failed").data,
              metaSummary := none, metaError := some cmsg,
              authCleared := clearedAtRestore }
          else
            { status := SyncState.completed, metaStatus := ("success").data,
              metaSummary := some counts, metaError := none,
              authCleared := clearedAtRestore }
      else
        { status := SyncState.completed, metaStatus := ("success").data,
          metaSummary := some counts, metaError := none,
          authCleared := clearedAtRestore }

/-- C10: with Learning Suite authentication recorded, session data
present, a failed cookie-restore verification, and no Canvas token, the
run clears the stored authentication and terminates Completed with a
success run-metadata record carrying zero counts — not Failed, and with no
interactive login attempted (the procedure has none). -/
theorem runSync_restore_failure_completes (env : RunEnv)
    (hauth : env.lsAuthenticated = true) (htok : env.canvasToken = none)
    (hsess : env.sessionData = true) (hinj : env.injectOk = false) :
    runSync env =
      { status := SyncState.completed, metaStatus := ("success").data,
        metaSummary := some (0, 0, 0), metaError := none,
        authCleared := true } := by
  simp [runSync, hauth, htok, hsess, hinj, truthyOpt]

/-- The concrete C10 environment: authentication recorded, restore fails,
no Canvas token. -/
def c10Env : RunEnv :=
  { lsAuthenticated := true, canvasToken := none, sessionData := true,
    injectOk := false, liveScraper := false, alreadyLoggedIn := false,
    scrape1 := Except.error [], injectOk2 := false,
    scrape2 := Except.error [], canvas := Except.error [] }

/-- Witness for C10 at a fully concrete environment. -/
theorem runSync_restore_failure_completes_witness :
    runSync c10Env
      = { status := SyncState.completed, metaStatus := ("success").data,
          metaSummary := some (0, 0, 0), metaError := none,
          authCleared := true } :=
  runSync_restore_failure_completes c10Env rfl rfl rfl rfl

end LS
